import Mathlib

/-!
Shallow embedding of `run_simulation` from `app111.py`, the discrete-time
closed-loop PID / FOPDT temperature simulator of this repository.

Modelling conventions:
* Python floats are modelled as exact rationals (`ℚ`);
* numpy arrays are lists of rationals, preallocated with zeros (`np.zeros`)
  and written in place (`List.set`);
* Python `int(x)` (truncation toward zero) is `pyInt`;
* Python exceptions (`ZeroDivisionError` from `total_time / dt` with
  `dt = 0` at line 32 and from `dt / T` with `T = 0` at line 83,
  `ValueError` from `np.linspace` with a negative sample count) are
  modelled with `Except`.
-/

namespace IPAC

/-- Python `int(x)` applied to a real quantity: truncation toward zero. -/
def pyInt (q : ℚ) : ℤ := if 0 ≤ q then ⌊q⌋ else ⌈q⌉

/-- `np.clip x lo hi`, i.e. `min (max x lo) hi`. -/
def npClip (x lo hi : ℚ) : ℚ := min (max x lo) hi

/-- `np.linspace a b num`: `num` evenly spaced samples from `a` to `b`,
both endpoints included (for `num = 1` numpy returns just `[a]`). -/
def linspace (a b : ℚ) (num : ℕ) : List ℚ :=
  if num = 1 then [a]
  else (List.range num).map (fun i : ℕ => a + (b - a) * (i : ℚ) / ((num : ℚ) - 1))

/-- The parameters of `run_simulation(kp, ti, td, K, T, L, sp, total_time, dt)`
(line 31 of `app111.py`; the Python defaults are `total_time=300`, `dt=0.5`). -/
structure Config where
  kp : ℚ
  ti : ℚ
  td : ℚ
  K : ℚ
  T : ℚ
  L : ℚ
  sp : ℚ
  total_time : ℚ
  dt : ℚ
deriving DecidableEq

/-- Line 32: `n_steps = int(total_time / dt)` (then taken as a natural
number on the non-error path, where it is nonnegative). -/
def nSteps (cfg : Config) : ℕ := (pyInt (cfg.total_time / cfg.dt)).toNat

/-- Line 41: `delay_steps = int(L / dt)`. -/
def delaySteps (cfg : Config) : ℤ := pyInt (cfg.L / cfg.dt)

/-- The mutable state of the simulation loop: the three preallocated
arrays `y`, `u`, `error` and the scalar PID state `integral`, `prev_error`. -/
structure SimState where
  y : List ℚ
  u : List ℚ
  err : List ℚ
  integral : ℚ
  prev_error : ℚ
deriving DecidableEq

/-- Lines 36-45: `y = np.zeros(n)`, `u = np.zeros(n)`, `error = np.zeros(n)`,
`integral = 0`, `prev_error = 0`. -/
def SimState.start (n : ℕ) : SimState :=
  { y := List.replicate n 0
    u := List.replicate n 0
    err := List.replicate n 0
    integral := 0
    prev_error := 0 }

/-- Line 50: `error[i] = sp - y[i - 1]`. -/
def stepErr (cfg : Config) (s : SimState) (i : ℕ) : ℚ :=
  cfg.sp - s.y.getD (i - 1) 0

/-- Lines 57-58: the two sequential hard clamps
`if integral > 100: integral = 100` and `if integral < -100: integral = -100`. -/
def clampI (x : ℚ) : ℚ :=
  let c1 := if x > 100 then 100 else x
  if c1 < -100 then -100 else c1

/-- Lines 53, 57-58: `integral += error[i] * dt` followed by the clamp. -/
def stepIntegral (cfg : Config) (s : SimState) (i : ℕ) : ℚ :=
  clampI (s.integral + stepErr cfg s i * cfg.dt)

/-- Line 54: `derivative = (error[i] - prev_error) / dt`. -/
def stepDeriv (cfg : Config) (s : SimState) (i : ℕ) : ℚ :=
  (stepErr cfg s i - s.prev_error) / cfg.dt

/-- Line 63: `term_i = (1 / ti * integral) if ti > 0.01 else 0`,
where `integral` holds the value clamped at lines 57-58. -/
def stepTerm (cfg : Config) (s : SimState) (i : ℕ) : ℚ :=
  if cfg.ti > 1 / 100 then 1 / cfg.ti * stepIntegral cfg s i else 0

/-- Lines 65, 68: `u_val = kp * (error[i] + term_i + td * derivative)`,
`u[i] = np.clip(u_val, 0, 100)`. -/
def stepU (cfg : Config) (s : SimState) (i : ℕ) : ℚ :=
  npClip (cfg.kp * (stepErr cfg s i + stepTerm cfg s i + cfg.td * stepDeriv cfg s i)) 0 100

/-- Lines 76-80: `idx_delayed = i - delay_steps`; `u_delayed = 0` if
`idx_delayed < 0` else `u[idx_delayed]`, reading the array after the
line-68 write of `u[i]`. Caveat: when `delay_steps < 0` (possible only
for `L ≤ -dt`, outside the data model's `L ≥ 0`), `idx_delayed` can
exceed the last array index and Python raises `IndexError` at line 80;
this model's `getD` returns the default `0` there instead, so theorems
about the loop carry a `0 ≤ L` hypothesis. -/
def stepUDelayed (cfg : Config) (s : SimState) (i : ℕ) : ℚ :=
  if (i : ℤ) - delaySteps cfg < 0 then 0
  else (s.u.set i (stepU cfg s i)).getD ((i : ℤ) - delaySteps cfg).toNat 0

/-- Line 83: `y[i] = (dt / T) * K * u_delayed + (1 - (dt / T)) * y[i - 1]`. -/
def stepY (cfg : Config) (s : SimState) (i : ℕ) : ℚ :=
  cfg.dt / cfg.T * cfg.K * stepUDelayed cfg s i
    + (1 - cfg.dt / cfg.T) * s.y.getD (i - 1) 0

/-- One iteration of the loop body (lines 47-83) at loop index `i`. -/
def stepOnce (cfg : Config) (s : SimState) (i : ℕ) : SimState :=
  { y := s.y.set i (stepY cfg s i)
    u := s.u.set i (stepU cfg s i)
    err := s.err.set i (stepErr cfg s i)
    integral := stepIntegral cfg s i
    prev_error := stepErr cfg s i }

/-- The state after executing loop iterations `1, 2, ..., j` of
`for i in range(1, n_steps)` starting from the zero-filled state. -/
def simStates (cfg : Config) : ℕ → SimState
  | 0 => SimState.start (nSteps cfg)
  | j + 1 => stepOnce cfg (simStates cfg j) (j + 1)

/-- The state at the end of the loop, i.e. after iterations `1..n_steps-1`. -/
def simFinal (cfg : Config) : SimState := simStates cfg (nSteps cfg - 1)

/-- `run_simulation` (lines 31-85), with Python's arithmetic exceptions
made explicit: `total_time / dt` at line 32 raises `ZeroDivisionError`
when `dt = 0`; `np.linspace` at line 33 raises `ValueError` when the
computed sample count is negative; `dt / T` at line 83 raises
`ZeroDivisionError` on the first loop iteration when `T = 0` and the loop
runs at least once. On the non-error path it returns
`(time, y, u, error)`. Not modelled: the `IndexError` that
`u[i - delay_steps]` at line 80 raises when `delay_steps < 0` (i.e.
`L ≤ -dt`) makes `i - delay_steps` exceed the array — see `stepUDelayed`;
the error behavior stated below is therefore only asserted under `0 ≤ L`
whenever the loop body runs. -/
def run_simulation (cfg : Config) :
    Except String (List ℚ × List ℚ × List ℚ × List ℚ) :=
  if cfg.dt = 0 then
    .error "ZeroDivisionError: float division by zero"
  else if pyInt (cfg.total_time / cfg.dt) < 0 then
    .error "ValueError: Number of samples must be non-negative"
  else if cfg.T = 0 ∧ 2 ≤ nSteps cfg then
    .error "ZeroDivisionError: float division by zero"
  else
    .ok (linspace 0 cfg.total_time (nSteps cfg),
         (simFinal cfg).y, (simFinal cfg).u, (simFinal cfg).err)

/-- `true` iff `run_simulation` completes without raising. -/
def runs_ok (cfg : Config) : Bool :=
  match run_simulation cfg with
  | .ok _ => true
  | .error _ => false

/-- The four returned sequences, `([], [], [], [])` on the error path. -/
def simTraj (cfg : Config) : List ℚ × List ℚ × List ℚ × List ℚ :=
  match run_simulation cfg with
  | .ok t => t
  | .error _ => ([], [], [], [])

/-- The returned `time` sequence. -/
def simTime (cfg : Config) : List ℚ := (simTraj cfg).1

/-- The returned `y` (process value) sequence. -/
def simOutput (cfg : Config) : List ℚ := (simTraj cfg).2.1

/-- The returned `u` (control) sequence. -/
def simControl (cfg : Config) : List ℚ := (simTraj cfg).2.2.1

/-- The returned `error` sequence. -/
def simError (cfg : Config) : List ℚ := (simTraj cfg).2.2.2

/-- The value of the internal `integral` accumulator after processing step
`i`, expressed as a recurrence over an error sequence `e`:
`integral` starts at `0` and at each step `i ≥ 1` is updated to
`clampI (integral + e[i] * dt)`. -/
def integralSeq (cfg : Config) (e : List ℚ) : ℕ → ℚ
  | 0 => 0
  | i + 1 => clampI (integralSeq cfg e i + e.getD (i + 1) 0 * cfg.dt)

/-! ### List indexing helper lemmas -/

lemma getD_set_self : ∀ (l : List ℚ) (i : ℕ), i < l.length → ∀ v : ℚ,
    (l.set i v).getD i 0 = v
  | [], i, h, _ => absurd h (Nat.not_lt_zero i)
  | _ :: _, 0, _, _ => rfl
  | _ :: l, i + 1, h, v => getD_set_self l i (Nat.lt_of_succ_lt_succ h) v

lemma getD_set_ne : ∀ (l : List ℚ) (i j : ℕ), i ≠ j → ∀ v : ℚ,
    (l.set i v).getD j 0 = l.getD j 0
  | [], _, 0, _, _ => rfl
  | [], _, _ + 1, _, _ => rfl
  | _ :: _, 0, 0, h, _ => absurd rfl h
  | _ :: _, 0, _ + 1, _, _ => rfl
  | _ :: _, _ + 1, 0, _, _ => rfl
  | _ :: l, i + 1, j + 1, h, v =>
      getD_set_ne l i j (fun hh => h (congrArg Nat.succ hh)) v

lemma getD_replicate : ∀ (n i : ℕ), (List.replicate n (0 : ℚ)).getD i 0 = 0
  | 0, 0 => rfl
  | 0, _ + 1 => rfl
  | _ + 1, 0 => rfl
  | n + 1, i + 1 => getD_replicate n i

lemma linspace_length (a b : ℚ) (num : ℕ) : (linspace a b num).length = num := by
  unfold linspace
  split
  · simp [*]
  · rw [List.length_map, List.length_range]

lemma linspace_getD {num : ℕ} (hnum : 2 ≤ num) (a b : ℚ) (i : ℕ) (hi : i < num) :
    (linspace a b num).getD i 0 = a + (b - a) * i / ((num : ℚ) - 1) := by
  unfold linspace
  rw [if_neg (by omega)]
  rw [List.getD_eq_getElem _ _ (by rw [List.length_map, List.length_range]; exact hi)]
  rw [List.getElem_map, List.getElem_range]

/-! ### Arithmetic facts about `pyInt` -/

lemma pyInt_eq_floor {q : ℚ} (h : 0 ≤ q) : pyInt q = ⌊q⌋ := by
  unfold pyInt
  exact if_pos h

lemma delaySteps_nonneg (cfg : Config) (hdt : 0 < cfg.dt) (hL : 0 ≤ cfg.L) :
    0 ≤ delaySteps cfg := by
  unfold delaySteps
  rw [pyInt_eq_floor (div_nonneg hL hdt.le)]
  exact Int.floor_nonneg.mpr (div_nonneg hL hdt.le)

lemma delaySteps_eq_floor (cfg : Config) (hdt : 0 < cfg.dt) (hL : 0 ≤ cfg.L) :
    delaySteps cfg = ⌊cfg.L / cfg.dt⌋ := by
  unfold delaySteps
  exact pyInt_eq_floor (div_nonneg hL hdt.le)

lemma nSteps_cast_eq_floor (cfg : Config) (hdt : 0 < cfg.dt) (htt : 0 ≤ cfg.total_time) :
    (nSteps cfg : ℤ) = ⌊cfg.total_time / cfg.dt⌋ := by
  have h : 0 ≤ cfg.total_time / cfg.dt := div_nonneg htt hdt.le
  unfold nSteps
  rw [pyInt_eq_floor h, Int.toNat_of_nonneg (Int.floor_nonneg.mpr h)]

/-! ### Loop invariants of `simStates` -/

lemma simStates_succ (cfg : Config) (j : ℕ) :
    simStates cfg (j + 1) = stepOnce cfg (simStates cfg j) (j + 1) := rfl

lemma simStates_lengths (cfg : Config) (j : ℕ) :
    (simStates cfg j).y.length = nSteps cfg ∧
    (simStates cfg j).u.length = nSteps cfg ∧
    (simStates cfg j).err.length = nSteps cfg := by
  induction j with
  | zero => refine ⟨?_, ?_, ?_⟩ <;> simp [simStates, SimState.start]
  | succ j ih =>
    obtain ⟨h1, h2, h3⟩ := ih
    refine ⟨?_, ?_, ?_⟩ <;>
      simp [simStates_succ, stepOnce, List.length_set, h1, h2, h3]

lemma simStates_getD_zero (cfg : Config) (j : ℕ) :
    (simStates cfg j).y.getD 0 0 = 0 ∧
    (simStates cfg j).u.getD 0 0 = 0 ∧
    (simStates cfg j).err.getD 0 0 = 0 := by
  induction j with
  | zero =>
    exact ⟨getD_replicate _ _, getD_replicate _ _, getD_replicate _ _⟩
  | succ j ih =>
    obtain ⟨h1, h2, h3⟩ := ih
    refine ⟨?_, ?_, ?_⟩ <;> simp only [simStates_succ, stepOnce] <;>
      rw [getD_set_ne _ _ _ (Nat.succ_ne_zero j)] <;> assumption

lemma simStates_getD_stable (cfg : Config) (i j k : ℕ) (hjk : j ≤ k) (hij : i ≤ j) :
    (simStates cfg k).y.getD i 0 = (simStates cfg j).y.getD i 0 ∧
    (simStates cfg k).u.getD i 0 = (simStates cfg j).u.getD i 0 ∧
    (simStates cfg k).err.getD i 0 = (simStates cfg j).err.getD i 0 := by
  induction k with
  | zero =>
    have hj0 : j = 0 := Nat.le_zero.mp hjk
    subst hj0
    exact ⟨rfl, rfl, rfl⟩
  | succ k ih =>
    rcases Nat.lt_or_ge j (k + 1) with h | h
    · have hk : j ≤ k := Nat.lt_succ_iff.mp h
      have hne : (k + 1) ≠ i := by omega
      obtain ⟨e1, e2, e3⟩ := ih hk
      refine ⟨?_, ?_, ?_⟩ <;> simp only [simStates_succ, stepOnce] <;>
        rw [getD_set_ne _ _ _ hne] <;> assumption
    · have hj : j = k + 1 := le_antisymm hjk h
      subst hj
      exact ⟨rfl, rfl, rfl⟩

lemma simStates_err_at (cfg : Config) (j : ℕ) (h : j + 1 < nSteps cfg) :
    (simStates cfg (j + 1)).err.getD (j + 1) 0 = stepErr cfg (simStates cfg j) (j + 1) := by
  have hlen := (simStates_lengths cfg j).2.2
  simp only [simStates_succ, stepOnce]
  exact getD_set_self _ _ (by rw [hlen]; exact h) _

lemma simStates_u_at (cfg : Config) (j : ℕ) (h : j + 1 < nSteps cfg) :
    (simStates cfg (j + 1)).u.getD (j + 1) 0 = stepU cfg (simStates cfg j) (j + 1) := by
  have hlen := (simStates_lengths cfg j).2.1
  simp only [simStates_succ, stepOnce]
  exact getD_set_self _ _ (by rw [hlen]; exact h) _

lemma simStates_y_at (cfg : Config) (j : ℕ) (h : j + 1 < nSteps cfg) :
    (simStates cfg (j + 1)).y.getD (j + 1) 0 = stepY cfg (simStates cfg j) (j + 1) := by
  have hlen := (simStates_lengths cfg j).1
  simp only [simStates_succ, stepOnce]
  exact getD_set_self _ _ (by rw [hlen]; exact h) _

lemma simStates_integral_at (cfg : Config) (j : ℕ) :
    (simStates cfg (j + 1)).integral = stepIntegral cfg (simStates cfg j) (j + 1) := rfl

lemma simStates_prev_at (cfg : Config) (j : ℕ) :
    (simStates cfg (j + 1)).prev_error = stepErr cfg (simStates cfg j) (j + 1) := rfl

lemma simStates_u_succ (cfg : Config) (j : ℕ) :
    (simStates cfg (j + 1)).u =
      (simStates cfg j).u.set (j + 1) (stepU cfg (simStates cfg j) (j + 1)) := rfl

lemma simStates_prev_eq_err (cfg : Config) (j : ℕ) (hj : j < nSteps cfg) :
    (simStates cfg j).prev_error = (simStates cfg j).err.getD j 0 := by
  cases j with
  | zero => exact ((simStates_getD_zero cfg 0).2.2).symm
  | succ j => rw [simStates_prev_at, simStates_err_at cfg j hj]

lemma simStates_integral_eq_seq (cfg : Config) (j : ℕ) (hj : j ≤ nSteps cfg - 1) :
    (simStates cfg j).integral = integralSeq cfg (simFinal cfg).err j := by
  induction j with
  | zero => rfl
  | succ j ih =>
    have hn : j + 1 < nSteps cfg := by omega
    have hE : (simFinal cfg).err.getD (j + 1) 0 = stepErr cfg (simStates cfg j) (j + 1) := by
      rw [simFinal,
        (simStates_getD_stable cfg (j + 1) (j + 1) (nSteps cfg - 1) hj le_rfl).2.2,
        simStates_err_at cfg j hn]
    rw [simStates_integral_at]
    show clampI ((simStates cfg j).integral + stepErr cfg (simStates cfg j) (j + 1) * cfg.dt) = _
    rw [ih (Nat.le_of_succ_le hj), ← hE]
    rfl

/-! ### Recurrences satisfied by the final arrays -/

lemma final_err_eq (cfg : Config) (i : ℕ) (h1 : 1 ≤ i) (h2 : i < nSteps cfg) :
    (simFinal cfg).err.getD i 0 = cfg.sp - (simFinal cfg).y.getD (i - 1) 0 := by
  obtain ⟨j, rfl⟩ : ∃ j, i = j + 1 := ⟨i - 1, by omega⟩
  have hi : j + 1 ≤ nSteps cfg - 1 := by omega
  rw [simFinal,
    (simStates_getD_stable cfg (j + 1) (j + 1) (nSteps cfg - 1) hi le_rfl).2.2,
    simStates_err_at cfg j h2]
  show cfg.sp - (simStates cfg j).y.getD j 0 = _
  simp only [Nat.add_sub_cancel]
  rw [(simStates_getD_stable cfg j j (nSteps cfg - 1) (by omega) le_rfl).1]

lemma final_u_eq (cfg : Config) (i : ℕ) (h1 : 1 ≤ i) (h2 : i < nSteps cfg) :
    (simFinal cfg).u.getD i 0 =
      npClip (cfg.kp * ((simFinal cfg).err.getD i 0
        + (if cfg.ti > 1 / 100 then 1 / cfg.ti * integralSeq cfg (simFinal cfg).err i else 0)
        + cfg.td * (((simFinal cfg).err.getD i 0 - (simFinal cfg).err.getD (i - 1) 0)
            / cfg.dt))) 0 100 := by
  obtain ⟨j, rfl⟩ : ∃ j, i = j + 1 := ⟨i - 1, by omega⟩
  have hi : j + 1 ≤ nSteps cfg - 1 := by omega
  have hE : (simFinal cfg).err.getD (j + 1) 0 = stepErr cfg (simStates cfg j) (j + 1) := by
    rw [simFinal,
      (simStates_getD_stable cfg (j + 1) (j + 1) (nSteps cfg - 1) hi le_rfl).2.2,
      simStates_err_at cfg j h2]
  have hE0 : (simFinal cfg).err.getD j 0 = (simStates cfg j).err.getD j 0 := by
    rw [simFinal]
    exact (simStates_getD_stable cfg j j (nSteps cfg - 1) (by omega) le_rfl).2.2
  have hI : stepIntegral cfg (simStates cfg j) (j + 1)
      = integralSeq cfg (simFinal cfg).err (j + 1) :=
    (simStates_integral_at cfg j).symm.trans (simStates_integral_eq_seq cfg (j + 1) hi)
  have hU : (simFinal cfg).u.getD (j + 1) 0 = stepU cfg (simStates cfg j) (j + 1) := by
    rw [simFinal,
      (simStates_getD_stable cfg (j + 1) (j + 1) (nSteps cfg - 1) hi le_rfl).2.1,
      simStates_u_at cfg j h2]
  rw [hU]
  simp only [stepU, stepTerm, stepDeriv]
  rw [hI, ← hE, simStates_prev_eq_err cfg j (by omega), ← hE0]
  simp only [Nat.add_sub_cancel]

lemma final_y_eq (cfg : Config) (hdt : 0 < cfg.dt) (hL : 0 ≤ cfg.L)
    (i : ℕ) (h1 : 1 ≤ i) (h2 : i < nSteps cfg) :
    (simFinal cfg).y.getD i 0 =
      cfg.dt / cfg.T * cfg.K *
        (if (i : ℤ) - delaySteps cfg < 0 then 0
         else (simFinal cfg).u.getD ((i : ℤ) - delaySteps cfg).toNat 0)
      + (1 - cfg.dt / cfg.T) * (simFinal cfg).y.getD (i - 1) 0 := by
  obtain ⟨j, rfl⟩ : ∃ j, i = j + 1 := ⟨i - 1, by omega⟩
  have hi : j + 1 ≤ nSteps cfg - 1 := by omega
  have hY : (simFinal cfg).y.getD (j + 1) 0 = stepY cfg (simStates cfg j) (j + 1) := by
    rw [simFinal,
      (simStates_getD_stable cfg (j + 1) (j + 1) (nSteps cfg - 1) hi le_rfl).1,
      simStates_y_at cfg j h2]
  have hY0 : (simFinal cfg).y.getD j 0 = (simStates cfg j).y.getD j 0 := by
    rw [simFinal]
    exact (simStates_getD_stable cfg j j (nSteps cfg - 1) (by omega) le_rfl).1
  rw [hY]
  simp only [stepY, stepUDelayed]
  rw [← simStates_u_succ cfg j]
  simp only [Nat.add_sub_cancel]
  rw [← hY0]
  by_cases hc : ((j + 1 : ℕ) : ℤ) - delaySteps cfg < 0
  · rw [if_pos hc, if_pos hc]
  · rw [if_neg hc, if_neg hc]
    have hd0 : 0 ≤ delaySteps cfg := delaySteps_nonneg cfg hdt hL
    have hm : (((j + 1 : ℕ) : ℤ) - delaySteps cfg).toNat ≤ j + 1 := by omega
    rw [simFinal,
      (simStates_getD_stable cfg (((j + 1 : ℕ) : ℤ) - delaySteps cfg).toNat (j + 1)
        (nSteps cfg - 1) hi hm).2.1]

/-! ### The non-error path of `run_simulation` -/

lemma run_eq_ok (cfg : Config) (hdt : 0 < cfg.dt) (htt : 0 < cfg.total_time)
    (hT : 0 < cfg.T) :
    run_simulation cfg =
      .ok (linspace 0 cfg.total_time (nSteps cfg),
           (simFinal cfg).y, (simFinal cfg).u, (simFinal cfg).err) := by
  have hq : 0 ≤ cfg.total_time / cfg.dt := div_nonneg htt.le hdt.le
  have h0 : ¬cfg.dt = 0 := hdt.ne.symm
  have h1 : ¬pyInt (cfg.total_time / cfg.dt) < 0 := by
    rw [pyInt_eq_floor hq]
    exact not_lt.mpr (Int.floor_nonneg.mpr hq)
  have h2 : ¬(cfg.T = 0 ∧ 2 ≤ nSteps cfg) := fun hc => hT.ne.symm hc.1
  unfold run_simulation
  rw [if_neg h0, if_neg h1, if_neg h2]

lemma simTime_eq (cfg : Config) (hdt : 0 < cfg.dt) (htt : 0 < cfg.total_time)
    (hT : 0 < cfg.T) :
    simTime cfg = linspace 0 cfg.total_time (nSteps cfg) := by
  unfold simTime simTraj
  rw [run_eq_ok cfg hdt htt hT]

lemma simOutput_eq (cfg : Config) (hdt : 0 < cfg.dt) (htt : 0 < cfg.total_time)
    (hT : 0 < cfg.T) :
    simOutput cfg = (simFinal cfg).y := by
  unfold simOutput simTraj
  rw [run_eq_ok cfg hdt htt hT]

lemma simControl_eq (cfg : Config) (hdt : 0 < cfg.dt) (htt : 0 < cfg.total_time)
    (hT : 0 < cfg.T) :
    simControl cfg = (simFinal cfg).u := by
  unfold simControl simTraj
  rw [run_eq_ok cfg hdt htt hT]

lemma simError_eq (cfg : Config) (hdt : 0 < cfg.dt) (htt : 0 < cfg.total_time)
    (hT : 0 < cfg.T) :
    simError cfg = (simFinal cfg).err := by
  unfold simError simTraj
  rw [run_eq_ok cfg hdt htt hT]

lemma simTime_length (cfg : Config) (hdt : 0 < cfg.dt) (htt : 0 < cfg.total_time)
    (hT : 0 < cfg.T) :
    (simTime cfg).length = nSteps cfg := by
  rw [simTime_eq cfg hdt htt hT, linspace_length]

lemma simControl_length (cfg : Config) (hdt : 0 < cfg.dt) (htt : 0 < cfg.total_time)
    (hT : 0 < cfg.T) :
    (simControl cfg).length = nSteps cfg := by
  rw [simControl_eq cfg hdt htt hT]
  exact (simStates_lengths cfg _).2.1

lemma simOutput_length (cfg : Config) (hdt : 0 < cfg.dt) (htt : 0 < cfg.total_time)
    (hT : 0 < cfg.T) :
    (simOutput cfg).length = nSteps cfg := by
  rw [simOutput_eq cfg hdt htt hT]
  exact (simStates_lengths cfg _).1

/-! ### Facts about the hard clamp -/

lemma clampI_bounds (x : ℚ) : -100 ≤ clampI x ∧ clampI x ≤ 100 := by
  by_cases h1 : x > 100
  · norm_num [clampI, h1]
  · by_cases h2 : x < -100
    · norm_num [clampI, h1, h2]
    · norm_num [clampI, h1, h2]
      constructor <;> linarith

lemma clampI_of_ge {x : ℚ} (h : 100 ≤ x) : clampI x = 100 := by
  by_cases h1 : x > 100
  · norm_num [clampI, h1]
  · have hx : x = 100 := le_antisymm (not_lt.mp h1) h
    norm_num [clampI, hx]

lemma integralSeq_bounds (cfg : Config) (e : List ℚ) (i : ℕ) :
    -100 ≤ integralSeq cfg e i ∧ integralSeq cfg e i ≤ 100 := by
  cases i with
  | zero => norm_num [integralSeq]
  | succ i => exact clampI_bounds _

/-- The PID control law satisfied by the returned `control` sequence, with
the clamped integral accumulator expressed through `integralSeq`. -/
lemma control_formula (cfg : Config) (hdt : 0 < cfg.dt) (htt : 0 < cfg.total_time)
    (hT : 0 < cfg.T) (i : ℕ) (h1 : 1 ≤ i) (h2 : i < nSteps cfg) :
    (simControl cfg).getD i 0 =
      npClip (cfg.kp * ((simError cfg).getD i 0
        + (if 1 / 100 < cfg.ti then integralSeq cfg (simError cfg) i / cfg.ti else 0)
        + cfg.td * (((simError cfg).getD i 0 - (simError cfg).getD (i - 1) 0)
            / cfg.dt))) 0 100 := by
  rw [simControl_eq cfg hdt htt hT, simError_eq cfg hdt htt hT]
  rw [final_u_eq cfg i h1 h2]
  simp only [one_div_mul_eq_div]

/-! ### Concrete configurations used in witnesses and counterexamples -/

/-- A small concrete configuration (4 steps, delaySteps = 2):
`kp=2, ti=10, td=1/2, K=5, T=50, L=1, sp=100, totalTime=2, dt=1/2`. -/
def wcfg : Config :=
  { kp := 2, ti := 10, td := 1/2, K := 5, T := 50, L := 1, sp := 100,
    total_time := 2, dt := 1/2 }

/-- `wcfg` with `ti = 1/200 ≤ 0.01`: the integral-disabled case. -/
def tinyTiCfg : Config := { wcfg with ti := 1/200 }

/-- `wcfg` with `totalTime = 3` (6 steps): exposes the linspace spacing. -/
def timeCfg : Config := { wcfg with total_time := 3 }

/-- `wcfg` with `T = -10` and `totalTime = 1`: an invalid time constant. -/
def negTCfg : Config := { wcfg with T := -10, total_time := 1 }

/-- `wcfg` with `totalTime = 0`. -/
def ttZeroCfg : Config := { wcfg with total_time := 0 }

/-- `wcfg` with `dt = 0`. -/
def dtZeroCfg : Config := { wcfg with dt := 0 }

/-- `wcfg` with `T = 0`. -/
def tZeroCfg : Config := { wcfg with T := 0 }

/-! ### Concrete facts about the witness configurations -/

lemma wcfg_dt : 0 < wcfg.dt := by norm_num [wcfg]

lemma wcfg_tt : 0 < wcfg.total_time := by norm_num [wcfg]

lemma wcfg_T : 0 < wcfg.T := by norm_num [wcfg]

lemma wcfg_L : 0 ≤ wcfg.L := by norm_num [wcfg]

lemma nSteps_wcfg : nSteps wcfg = 4 := by
  norm_num [nSteps, pyInt, wcfg]
  decide

lemma simOutput_wcfg_len : (simOutput wcfg).length = 4 := by
  rw [simOutput_length wcfg wcfg_dt wcfg_tt wcfg_T, nSteps_wcfg]

lemma simControl_wcfg_len : (simControl wcfg).length = 4 := by
  rw [simControl_length wcfg wcfg_dt wcfg_tt wcfg_T, nSteps_wcfg]

lemma simTime_wcfg_len : (simTime wcfg).length = 4 := by
  rw [simTime_length wcfg wcfg_dt wcfg_tt wcfg_T, nSteps_wcfg]

/-! ### The claims -/

/-- C1: for every valid configuration (`dt > 0`, `totalTime > 0`, `T > 0`,
and the data-model constraint `L ≥ 0`) and every step `i` in `1..n-1`, the
plant output satisfies the explicit-Euler FOPDT recurrence
`output[i] = (dt/T) * K * delayedControl + (1 - dt/T) * output[i-1]`, where
`delaySteps = ⌊L / dt⌋` and `delayedControl = control[i - delaySteps]` when
`i - delaySteps ≥ 0`, else `0`. -/
theorem output_euler_recurrence (cfg : Config)
    (hdt : 0 < cfg.dt) (htt : 0 < cfg.total_time) (hT : 0 < cfg.T) (hL : 0 ≤ cfg.L)
    (i : ℕ) (h1 : 1 ≤ i) (h2 : i < (simOutput cfg).length) :
    (simOutput cfg).getD i 0 =
      cfg.dt / cfg.T * cfg.K *
        (if 0 ≤ (i : ℤ) - ⌊cfg.L / cfg.dt⌋ then
           (simControl cfg).getD ((i : ℤ) - ⌊cfg.L / cfg.dt⌋).toNat 0
         else 0)
      + (1 - cfg.dt / cfg.T) * (simOutput cfg).getD (i - 1) 0 := by
  rw [simOutput_length cfg hdt htt hT] at h2
  rw [simOutput_eq cfg hdt htt hT, simControl_eq cfg hdt htt hT,
    ← delaySteps_eq_floor cfg hdt hL]
  rw [final_y_eq cfg hdt hL i h1 h2]
  by_cases hc : (i : ℤ) - delaySteps cfg < 0
  · rw [if_pos hc, if_neg (not_le.mpr hc)]
  · rw [if_neg hc, if_pos (not_lt.mp hc)]

theorem output_euler_recurrence_witness :
    (simOutput wcfg).getD 3 0 =
      wcfg.dt / wcfg.T * wcfg.K *
        (if 0 ≤ ((3 : ℕ) : ℤ) - ⌊wcfg.L / wcfg.dt⌋ then
           (simControl wcfg).getD (((3 : ℕ) : ℤ) - ⌊wcfg.L / wcfg.dt⌋).toNat 0
         else 0)
      + (1 - wcfg.dt / wcfg.T) * (simOutput wcfg).getD (3 - 1) 0 :=
  output_euler_recurrence wcfg wcfg_dt wcfg_tt wcfg_T wcfg_L
    3 (by norm_num) (by rw [simOutput_wcfg_len]; norm_num)

/-- C2: for every valid configuration and every step `i` in `1..n-1`, the
controller computes `error[i] = setpoint - output[i-1]`,
`derivative = (error[i] - error[i-1]) / dt`,
`term_i = integral / Ti` if `Ti > 0.01` else `0` (where `integral` is the
clamped accumulator value `integralSeq` at step `i`), and
`control[i] = clamp(Kp * (error[i] + term_i + Td * derivative), 0, 100)`. -/
theorem pid_control_law (cfg : Config)
    (hdt : 0 < cfg.dt) (htt : 0 < cfg.total_time) (hT : 0 < cfg.T) (hL : 0 ≤ cfg.L)
    (i : ℕ) (h1 : 1 ≤ i) (h2 : i < (simControl cfg).length) :
    (simError cfg).getD i 0 = cfg.sp - (simOutput cfg).getD (i - 1) 0 ∧
    (simControl cfg).getD i 0 =
      npClip (cfg.kp * ((simError cfg).getD i 0
        + (if 1 / 100 < cfg.ti then integralSeq cfg (simError cfg) i / cfg.ti else 0)
        + cfg.td * (((simError cfg).getD i 0 - (simError cfg).getD (i - 1) 0)
            / cfg.dt))) 0 100 := by
  rw [simControl_length cfg hdt htt hT] at h2
  refine ⟨?_, control_formula cfg hdt htt hT i h1 h2⟩
  rw [simError_eq cfg hdt htt hT, simOutput_eq cfg hdt htt hT]
  exact final_err_eq cfg i h1 h2

theorem pid_control_law_witness :
    (simError wcfg).getD 2 0 = wcfg.sp - (simOutput wcfg).getD (2 - 1) 0 ∧
    (simControl wcfg).getD 2 0 =
      npClip (wcfg.kp * ((simError wcfg).getD 2 0
        + (if 1 / 100 < wcfg.ti then integralSeq wcfg (simError wcfg) 2 / wcfg.ti else 0)
        + wcfg.td * (((simError wcfg).getD 2 0 - (simError wcfg).getD (2 - 1) 0)
            / wcfg.dt))) 0 100 :=
  pid_control_law wcfg wcfg_dt wcfg_tt wcfg_T wcfg_L
    2 (by norm_num) (by rw [simControl_wcfg_len]; norm_num)

/-- C3: for every valid configuration and every index `i` in `0..n-1`, the
control signal is saturated to the actuator range: `0 ≤ control[i] ≤ 100`. -/
theorem control_saturation (cfg : Config)
    (hdt : 0 < cfg.dt) (htt : 0 < cfg.total_time) (hT : 0 < cfg.T) (hL : 0 ≤ cfg.L)
    (i : ℕ) (h2 : i < (simControl cfg).length) :
    0 ≤ (simControl cfg).getD i 0 ∧ (simControl cfg).getD i 0 ≤ 100 := by
  rw [simControl_length cfg hdt htt hT] at h2
  rcases Nat.eq_zero_or_pos i with h0 | h1
  · subst h0
    rw [simControl_eq cfg hdt htt hT, simFinal]
    rw [(simStates_getD_zero cfg (nSteps cfg - 1)).2.1]
    norm_num
  · rw [simControl_eq cfg hdt htt hT, final_u_eq cfg i h1 h2]
    unfold npClip
    refine ⟨le_min (le_max_right _ _) (by norm_num), min_le_right _ _⟩

theorem control_saturation_witness :
    0 ≤ (simControl wcfg).getD 1 0 ∧ (simControl wcfg).getD 1 0 ≤ 100 :=
  control_saturation wcfg wcfg_dt wcfg_tt wcfg_T wcfg_L
    1 (by rw [simControl_wcfg_len]; norm_num)

/-- C5: for every valid configuration, the four returned sequences `time`,
`output`, `control`, `error` all have the same length
`n = ⌊totalTime / dt⌋`. -/
theorem trajectory_lengths (cfg : Config)
    (hdt : 0 < cfg.dt) (htt : 0 < cfg.total_time) (hT : 0 < cfg.T) (hL : 0 ≤ cfg.L) :
    ((simTime cfg).length : ℤ) = ⌊cfg.total_time / cfg.dt⌋ ∧
    (simOutput cfg).length = (simTime cfg).length ∧
    (simControl cfg).length = (simTime cfg).length ∧
    (simError cfg).length = (simTime cfg).length := by
  have ht := simTime_length cfg hdt htt hT
  refine ⟨?_, ?_, ?_, ?_⟩
  · rw [ht]
    exact nSteps_cast_eq_floor cfg hdt htt.le
  · rw [ht, simOutput_eq cfg hdt htt hT]
    exact (simStates_lengths cfg _).1
  · rw [ht, simControl_eq cfg hdt htt hT]
    exact (simStates_lengths cfg _).2.1
  · rw [ht, simError_eq cfg hdt htt hT]
    exact (simStates_lengths cfg _).2.2

theorem trajectory_lengths_witness :
    ((simTime wcfg).length : ℤ) = ⌊wcfg.total_time / wcfg.dt⌋ ∧
    (simOutput wcfg).length = (simTime wcfg).length ∧
    (simControl wcfg).length = (simTime wcfg).length ∧
    (simError wcfg).length = (simTime wcfg).length :=
  trajectory_lengths wcfg wcfg_dt wcfg_tt wcfg_T wcfg_L

lemma timeCfg_dt : 0 < timeCfg.dt := by norm_num [timeCfg, wcfg]

lemma timeCfg_tt : 0 < timeCfg.total_time := by norm_num [timeCfg, wcfg]

lemma timeCfg_T : 0 < timeCfg.T := by norm_num [timeCfg, wcfg]

lemma timeCfg_L : 0 ≤ timeCfg.L := by norm_num [timeCfg, wcfg]

lemma nSteps_timeCfg : nSteps timeCfg = 6 := by
  norm_num [nSteps, pyInt, timeCfg, wcfg]
  decide

lemma simTime_timeCfg_len : (simTime timeCfg).length = 6 := by
  rw [simTime_length timeCfg timeCfg_dt timeCfg_tt timeCfg_T, nSteps_timeCfg]

/-- C6 counterexample: for the valid configuration `timeCfg`
(`totalTime = 3`, `dt = 1/2`, so `n = 6`), the returned time axis has
`time[1] = 3/5`, not `1 * dt = 1/2`: `np.linspace(0, totalTime, n)` spaces
its samples by `totalTime/(n-1)`, not by `dt`. -/
theorem time_axis_counterexample :
    1 < (simTime timeCfg).length ∧
    (simTime timeCfg).getD 1 0 ≠ ((1 : ℕ) : ℚ) * timeCfg.dt := by
  constructor
  · rw [simTime_timeCfg_len]
    norm_num
  · rw [simTime_eq timeCfg timeCfg_dt timeCfg_tt timeCfg_T, nSteps_timeCfg,
      linspace_getD (by norm_num) 0 timeCfg.total_time 1 (by norm_num)]
    norm_num [timeCfg, wcfg]

/-- C6 amended: the time axis is produced by
`np.linspace(0, totalTime, n)`, so for every valid configuration and every
`i < n`, `time[i] = i * totalTime / (n - 1)` when `n ≥ 2`, and
`time[0] = 0` when `n = 1`; `time[i] = i * dt` holds only when
`totalTime = (n - 1) * dt`. -/
theorem time_axis_linspace (cfg : Config)
    (hdt : 0 < cfg.dt) (htt : 0 < cfg.total_time) (hT : 0 < cfg.T) (hL : 0 ≤ cfg.L)
    (i : ℕ) (hi : i < (simTime cfg).length) :
    (simTime cfg).getD i 0 =
      if 2 ≤ (simTime cfg).length then
        (i : ℚ) * cfg.total_time / (((simTime cfg).length : ℚ) - 1)
      else 0 := by
  have hlen := simTime_length cfg hdt htt hT
  rw [hlen] at hi
  rw [hlen, simTime_eq cfg hdt htt hT]
  by_cases h2 : 2 ≤ nSteps cfg
  · rw [if_pos h2, linspace_getD h2 0 cfg.total_time i hi]
    ring
  · rw [if_neg h2]
    have hn1 : nSteps cfg = 1 := by omega
    have hi0 : i = 0 := by omega
    subst hi0
    rw [hn1]
    simp [linspace]

theorem time_axis_linspace_witness :
    (simTime timeCfg).getD 1 0 =
      if 2 ≤ (simTime timeCfg).length then
        ((1 : ℕ) : ℚ) * timeCfg.total_time / (((simTime timeCfg).length : ℚ) - 1)
      else 0 :=
  time_axis_linspace timeCfg timeCfg_dt timeCfg_tt timeCfg_T timeCfg_L 1
    (by rw [simTime_timeCfg_len]; norm_num)

lemma tinyTi_dt : 0 < tinyTiCfg.dt := by norm_num [tinyTiCfg, wcfg]

lemma tinyTi_tt : 0 < tinyTiCfg.total_time := by norm_num [tinyTiCfg, wcfg]

lemma tinyTi_T : 0 < tinyTiCfg.T := by norm_num [tinyTiCfg, wcfg]

lemma tinyTi_L : 0 ≤ tinyTiCfg.L := by norm_num [tinyTiCfg, wcfg]

lemma tinyTi_ti : tinyTiCfg.ti ≤ 1 / 100 := by norm_num [tinyTiCfg, wcfg]

lemma nSteps_tinyTi : nSteps tinyTiCfg = 4 := by
  norm_num [nSteps, pyInt, tinyTiCfg, wcfg]
  decide

lemma simControl_tinyTi_len : (simControl tinyTiCfg).length = 4 := by
  rw [simControl_length tinyTiCfg tinyTi_dt tinyTi_tt tinyTi_T, nSteps_tinyTi]

/-- C7: for every valid configuration with `Ti ≤ 0.01` (including
`Ti ≤ 0`), the simulation completes without raising any error, and the
integral contribution is exactly zero at every step:
`control[i] = clamp(Kp * (error[i] + Td * derivative), 0, 100)`,
with no division by `Ti`. -/
theorem integral_disabled_no_error (cfg : Config)
    (hdt : 0 < cfg.dt) (htt : 0 < cfg.total_time) (hT : 0 < cfg.T) (hL : 0 ≤ cfg.L)
    (hti : cfg.ti ≤ 1 / 100) :
    runs_ok cfg = true ∧
    ∀ i : ℕ, 1 ≤ i → i < (simControl cfg).length →
      (simControl cfg).getD i 0 =
        npClip (cfg.kp * ((simError cfg).getD i 0
          + cfg.td * (((simError cfg).getD i 0 - (simError cfg).getD (i - 1) 0)
              / cfg.dt))) 0 100 := by
  constructor
  · unfold runs_ok
    rw [run_eq_ok cfg hdt htt hT]
  · intro i h1 h2
    rw [simControl_length cfg hdt htt hT] at h2
    rw [control_formula cfg hdt htt hT i h1 h2, if_neg (not_lt.mpr hti), add_zero]

theorem integral_disabled_no_error_witness :
    runs_ok tinyTiCfg = true ∧
    (simControl tinyTiCfg).getD 1 0 =
      npClip (tinyTiCfg.kp * ((simError tinyTiCfg).getD 1 0
        + tinyTiCfg.td * (((simError tinyTiCfg).getD 1 0 - (simError tinyTiCfg).getD (1 - 1) 0)
            / tinyTiCfg.dt))) 0 100 :=
  ⟨(integral_disabled_no_error tinyTiCfg tinyTi_dt tinyTi_tt tinyTi_T tinyTi_L tinyTi_ti).1,
   (integral_disabled_no_error tinyTiCfg tinyTi_dt tinyTi_tt tinyTi_T tinyTi_L tinyTi_ti).2
     1 (by norm_num) (by rw [simControl_tinyTi_len]; norm_num)⟩

/-- C8: for every valid configuration with `n ≥ 1`, step 0 is the fixed
zero initial condition: `output[0] = 0`, `control[0] = 0`, `error[0] = 0`. -/
theorem zero_initial_condition (cfg : Config)
    (hdt : 0 < cfg.dt) (htt : 0 < cfg.total_time) (hT : 0 < cfg.T) (hL : 0 ≤ cfg.L)
    (hn : 1 ≤ (simTime cfg).length) :
    (simOutput cfg).getD 0 0 = 0 ∧ (simControl cfg).getD 0 0 = 0 ∧
    (simError cfg).getD 0 0 = 0 := by
  rw [simOutput_eq cfg hdt htt hT, simControl_eq cfg hdt htt hT,
    simError_eq cfg hdt htt hT, simFinal]
  exact simStates_getD_zero cfg _

theorem zero_initial_condition_witness :
    (simOutput wcfg).getD 0 0 = 0 ∧ (simControl wcfg).getD 0 0 = 0 ∧
    (simError wcfg).getD 0 0 = 0 :=
  zero_initial_condition wcfg wcfg_dt wcfg_tt wcfg_T wcfg_L
    (by rw [simTime_wcfg_len]; norm_num)

lemma simError_wcfg : simError wcfg = [0, 100, 100, 100] := by
  norm_num [simError, simTraj, run_simulation, nSteps, pyInt, delaySteps, simFinal,
    simStates, stepOnce, stepY, stepU, stepErr, stepTerm, stepDeriv, stepIntegral,
    stepUDelayed, clampI, npClip, SimState.start, linspace, List.replicate, wcfg,
    Int.toNat_ofNat]

lemma simOutput_wcfg : simOutput wcfg = [0, 0, 0, 5] := by
  norm_num [simOutput, simTraj, run_simulation, nSteps, pyInt, delaySteps, simFinal,
    simStates, stepOnce, stepY, stepU, stepErr, stepTerm, stepDeriv, stepIntegral,
    stepUDelayed, clampI, npClip, SimState.start, linspace, List.replicate, wcfg,
    Int.toNat_ofNat]

/-- C9: at every step of every valid run the internal integral accumulator
follows the clamped recurrence `integralSeq` (update `integral += e[i]*dt`
immediately followed by the clamp to `[-100, 100]`): the accumulator state
at the end of the run equals `integralSeq` at step `n-1`; `integralSeq`
always stays in `[-100, 100]`; the clamped value is the one used in
`term_i` of the control law; and once the update reaches or exceeds `100`
the accumulator saturates exactly at `100`, so the integral contribution
stops growing under sustained positive error. -/
theorem integral_anti_windup (cfg : Config)
    (hdt : 0 < cfg.dt) (htt : 0 < cfg.total_time) (hT : 0 < cfg.T) (hL : 0 ≤ cfg.L) :
    (simFinal cfg).integral = integralSeq cfg (simError cfg) ((simTime cfg).length - 1) ∧
    (∀ i : ℕ, -100 ≤ integralSeq cfg (simError cfg) i ∧
      integralSeq cfg (simError cfg) i ≤ 100) ∧
    (∀ i : ℕ, 1 ≤ i → i < (simControl cfg).length →
      (simControl cfg).getD i 0 =
        npClip (cfg.kp * ((simError cfg).getD i 0
          + (if 1 / 100 < cfg.ti then integralSeq cfg (simError cfg) i / cfg.ti else 0)
          + cfg.td * (((simError cfg).getD i 0 - (simError cfg).getD (i - 1) 0)
              / cfg.dt))) 0 100) ∧
    (∀ i : ℕ,
      100 ≤ integralSeq cfg (simError cfg) i + (simError cfg).getD (i + 1) 0 * cfg.dt →
      integralSeq cfg (simError cfg) (i + 1) = 100) := by
  refine ⟨?_, fun i => integralSeq_bounds cfg _ i, ?_, fun i h => clampI_of_ge h⟩
  · rw [simTime_length cfg hdt htt hT, simError_eq cfg hdt htt hT]
    exact simStates_integral_eq_seq cfg (nSteps cfg - 1) le_rfl
  · intro i h1 h2
    rw [simControl_length cfg hdt htt hT] at h2
    exact control_formula cfg hdt htt hT i h1 h2

theorem integral_anti_windup_witness :
    (simFinal wcfg).integral = integralSeq wcfg (simError wcfg) ((simTime wcfg).length - 1) ∧
    (-100 ≤ integralSeq wcfg (simError wcfg) 3 ∧ integralSeq wcfg (simError wcfg) 3 ≤ 100) ∧
    ((simControl wcfg).getD 2 0 =
      npClip (wcfg.kp * ((simError wcfg).getD 2 0
        + (if 1 / 100 < wcfg.ti then integralSeq wcfg (simError wcfg) 2 / wcfg.ti else 0)
        + wcfg.td * (((simError wcfg).getD 2 0 - (simError wcfg).getD (2 - 1) 0)
            / wcfg.dt))) 0 100) ∧
    integralSeq wcfg (simError wcfg) (1 + 1) = 100 :=
  ⟨(integral_anti_windup wcfg wcfg_dt wcfg_tt wcfg_T wcfg_L).1,
   (integral_anti_windup wcfg wcfg_dt wcfg_tt wcfg_T wcfg_L).2.1 3,
   (integral_anti_windup wcfg wcfg_dt wcfg_tt wcfg_T wcfg_L).2.2.1 2 (by norm_num)
     (by rw [simControl_wcfg_len]; norm_num),
   (integral_anti_windup wcfg wcfg_dt wcfg_tt wcfg_T wcfg_L).2.2.2 1
     (by rw [simError_wcfg]; norm_num [integralSeq, clampI, wcfg])⟩

lemma wcfg_delay_floor : (⌊wcfg.L / wcfg.dt⌋).toNat = 2 := by
  norm_num [wcfg]
  decide

/-- C10: for every valid configuration the plant output is exactly zero
throughout the initial delay window, `output[i] = 0` for every
`i ≤ min delaySteps (n-1)` with `delaySteps = ⌊L / dt⌋` (since
`control[0] = 0` and every pre-start delayed input is treated as `0`); and
the first index whose output can be nonzero is `delaySteps + 1`, witnessed
by the concrete configuration `wcfg`, whose output at `delaySteps + 1` is
nonzero. -/
theorem delay_window_zero_output (cfg : Config)
    (hdt : 0 < cfg.dt) (htt : 0 < cfg.total_time) (hT : 0 < cfg.T) (hL : 0 ≤ cfg.L) :
    (∀ i : ℕ, i ≤ min (⌊cfg.L / cfg.dt⌋).toNat ((simTime cfg).length - 1) →
      (simOutput cfg).getD i 0 = 0) ∧
    (simOutput wcfg).getD ((⌊wcfg.L / wcfg.dt⌋).toNat + 1) 0 ≠ 0 := by
  constructor
  · rw [simTime_length cfg hdt htt hT, ← delaySteps_eq_floor cfg hdt hL,
      simOutput_eq cfg hdt htt hT]
    intro i
    induction i with
    | zero =>
      intro _
      rw [simFinal]
      exact (simStates_getD_zero cfg _).1
    | succ i ih =>
      intro hi
      have hd0 : 0 ≤ delaySteps cfg := delaySteps_nonneg cfg hdt hL
      have hi1 : i + 1 ≤ (delaySteps cfg).toNat := le_trans hi (min_le_left _ _)
      have hi2 : i + 1 ≤ nSteps cfg - 1 := le_trans hi (min_le_right _ _)
      have hn : i + 1 < nSteps cfg := by omega
      rw [final_y_eq cfg hdt hL (i + 1) (by omega) hn]
      simp only [Nat.add_sub_cancel]
      rw [ih (by omega)]
      by_cases hc : ((i + 1 : ℕ) : ℤ) - delaySteps cfg < 0
      · rw [if_pos hc]
        ring
      · rw [if_neg hc]
        have h0 : ((i + 1 : ℕ) : ℤ) - delaySteps cfg = 0 := by omega
        rw [h0]
        have hu0 : (simFinal cfg).u.getD (0 : ℤ).toNat 0 = 0 := by
          rw [simFinal]
          exact (simStates_getD_zero cfg _).2.1
        rw [hu0]
        ring
  · rw [wcfg_delay_floor, simOutput_wcfg]
    norm_num

theorem delay_window_zero_output_witness :
    (simOutput wcfg).getD 2 0 = 0 ∧
    (simOutput wcfg).getD ((⌊wcfg.L / wcfg.dt⌋).toNat + 1) 0 ≠ 0 :=
  ⟨(delay_window_zero_output wcfg wcfg_dt wcfg_tt wcfg_T wcfg_L).1 2
     (by rw [wcfg_delay_floor, simTime_wcfg_len]; norm_num),
   (delay_window_zero_output wcfg wcfg_dt wcfg_tt wcfg_T wcfg_L).2⟩

/-! ### C4: error behavior -/

lemma run_eq_ok_gen (cfg : Config) (h0 : cfg.dt ≠ 0)
    (h1 : ¬pyInt (cfg.total_time / cfg.dt) < 0)
    (h2 : ¬(cfg.T = 0 ∧ 2 ≤ nSteps cfg)) :
    run_simulation cfg =
      .ok (linspace 0 cfg.total_time (nSteps cfg),
           (simFinal cfg).y, (simFinal cfg).u, (simFinal cfg).err) := by
  unfold run_simulation
  rw [if_neg h0, if_neg h1, if_neg h2]

lemma pyInt_eq_zero {q : ℚ} (hlo : -1 < q) (hhi : q ≤ 0) : pyInt q = 0 := by
  rcases eq_or_lt_of_le hhi with he | hlt
  · subst he
    unfold pyInt
    norm_num
  · unfold pyInt
    rw [if_neg (not_le.mpr hlt)]
    exact Int.ceil_eq_zero_iff.mpr ⟨hlo, hhi⟩

/-- C4 counterexample: `negTCfg` has `T = -10 ≤ 0` (with `dt > 0` and
`totalTime > 0`), yet `run_simulation` performs no configuration validation
and completes, returning a trajectory instead of raising any error. -/
theorem no_validation_counterexample :
    negTCfg.T ≤ 0 ∧ runs_ok negTCfg = true := by
  constructor
  · norm_num [negTCfg, wcfg]
  · unfold runs_ok
    rw [run_eq_ok_gen negTCfg (by norm_num [negTCfg, wcfg])
      (by rw [pyInt_eq_floor (by norm_num [negTCfg, wcfg])]
          norm_num [negTCfg, wcfg])
      (fun hc => absurd hc.1 (by norm_num [negTCfg, wcfg]))]

lemma pyInt_neg {q : ℚ} (h : q ≤ -1) : pyInt q < 0 := by
  unfold pyInt
  rw [if_neg (not_le.mpr (by linarith : q < 0))]
  have hc : ⌈q⌉ ≤ -1 := Int.ceil_le.mpr (by exact_mod_cast h)
  omega

/-- C4 amended: `run_simulation` performs no configuration validation at
all. `dt = 0` fails with the `ZeroDivisionError` of `total_time / dt`;
`totalTime ≤ -dt` (with `dt > 0`) truncates to a negative step count and
fails with `np.linspace`'s `ValueError`; `T < 0` (with `dt, totalTime > 0`
and `L ≥ 0`) completes and returns a trajectory; `totalTime ≤ 0` with
`-dt < totalTime` truncates the step count to `0` and returns four empty
sequences without error; and `T = 0` (with `L ≥ 0`) with at least two
steps fails with the `ZeroDivisionError` of `dt / T` only once the loop
body first runs. (The `L ≥ 0` guards keep the loop's delayed read in
range; for `L ≤ -dt` the Python loop instead raises `IndexError` at
line 80, a path this model does not represent.) -/
theorem error_behavior_amended (cfg : Config) :
    (cfg.dt = 0 →
      run_simulation cfg = .error "ZeroDivisionError: float division by zero") ∧
    (0 < cfg.dt → cfg.total_time ≤ -cfg.dt →
      run_simulation cfg = .error "ValueError: Number of samples must be non-negative") ∧
    (0 < cfg.dt → 0 < cfg.total_time → 0 ≤ cfg.L → cfg.T < 0 → runs_ok cfg = true) ∧
    (0 < cfg.dt → -cfg.dt < cfg.total_time → cfg.total_time ≤ 0 →
      run_simulation cfg = .ok ([], [], [], [])) ∧
    (0 < cfg.dt → 0 ≤ cfg.L → cfg.T = 0 → 2 ≤ nSteps cfg →
      run_simulation cfg = .error "ZeroDivisionError: float division by zero") := by
  refine ⟨?_, ?_, ?_, ?_, ?_⟩
  · intro h
    unfold run_simulation
    rw [if_pos h]
  · intro h1 h4
    have hq1 : cfg.total_time / cfg.dt ≤ -1 := by
      rw [div_le_iff₀ h1]
      linarith
    unfold run_simulation
    rw [if_neg h1.ne', if_pos (pyInt_neg hq1)]
  · intro h1 h2 hL h3
    unfold runs_ok
    rw [run_eq_ok_gen cfg h1.ne'
      (by rw [pyInt_eq_floor (div_nonneg h2.le h1.le)]
          exact not_lt.mpr (Int.floor_nonneg.mpr (div_nonneg h2.le h1.le)))
      (fun hc => absurd hc.1 h3.ne)]
  · intro h1 h2 h3
    have hq : -1 < cfg.total_time / cfg.dt := by
      rw [lt_div_iff₀ h1]
      linarith
    have hq2 : cfg.total_time / cfg.dt ≤ 0 := by
      rw [div_le_iff₀ h1]
      linarith
    have hq0 : pyInt (cfg.total_time / cfg.dt) = 0 := pyInt_eq_zero hq hq2
    have hn0 : nSteps cfg = 0 := by
      unfold nSteps
      rw [hq0]
      rfl
    unfold run_simulation
    rw [if_neg h1.ne', if_neg (by rw [hq0]; norm_num),
      if_neg (fun hc => absurd (hn0 ▸ hc.2) (by norm_num))]
    unfold simFinal
    rw [hn0]
    simp [linspace, simStates, SimState.start, hn0, List.replicate]
  · intro h1 hL hT0 hn2
    unfold run_simulation
    rw [if_neg h1.ne', if_neg (by unfold nSteps at hn2; omega), if_pos ⟨hT0, hn2⟩]

lemma nSteps_tZero : nSteps tZeroCfg = 4 := by
  norm_num [nSteps, pyInt, tZeroCfg, wcfg]
  decide

/-- `wcfg` with `totalTime = -3 ≤ -dt`: a negative truncated step count. -/
def ttNegCfg : Config := { wcfg with total_time := -3 }

theorem error_behavior_amended_witness :
    run_simulation dtZeroCfg = .error "ZeroDivisionError: float division by zero" ∧
    run_simulation ttNegCfg = .error "ValueError: Number of samples must be non-negative" ∧
    runs_ok negTCfg = true ∧
    run_simulation ttZeroCfg = .ok ([], [], [], []) ∧
    run_simulation tZeroCfg = .error "ZeroDivisionError: float division by zero" :=
  ⟨(error_behavior_amended dtZeroCfg).1 (by norm_num [dtZeroCfg, wcfg]),
   (error_behavior_amended ttNegCfg).2.1 (by norm_num [ttNegCfg, wcfg])
     (by norm_num [ttNegCfg, wcfg]),
   (error_behavior_amended negTCfg).2.2.1 (by norm_num [negTCfg, wcfg])
     (by norm_num [negTCfg, wcfg]) (by norm_num [negTCfg, wcfg])
     (by norm_num [negTCfg, wcfg]),
   (error_behavior_amended ttZeroCfg).2.2.2.1 (by norm_num [ttZeroCfg, wcfg])
     (by norm_num [ttZeroCfg, wcfg]) (by norm_num [ttZeroCfg, wcfg]),
   (error_behavior_amended tZeroCfg).2.2.2.2 (by norm_num [tZeroCfg, wcfg])
     (by norm_num [tZeroCfg, wcfg]) (by norm_num [tZeroCfg, wcfg])
     (by rw [nSteps_tZero]; norm_num)⟩

end IPAC
